import Mathlib

/-!
# Verification of the Git_timeline commit-history narrator

Shallow embedding of `src/logic.py` and `src/streamlit_app.py`: a pipeline
that extracts structured records from git commit history, classifies and
summarizes them, and assembles a prompt for an external text-generation
service.

External collaborators (GitPython history traversal, the filesystem, the
OpenAI client) are modelled as explicit inputs: the commit list is passed
in newest-first exactly as `repo.iter_commits` reports it, filesystem
existence is a predicate parameter, and the network call is represented by
the request value the code would send.  Python string primitives
(`lower`, `strip`, `splitlines`, slicing, `replace`, `in`,
`startswith`/`endswith`, `os.path.basename`/`join`) are given executable
ASCII-faithful models below; machine integers do not overflow in this
program (Python ints are unbounded), so `Nat` is used throughout.
-/

/-- Model of Python `str.lower` on one character (ASCII range, which is all
the keyword tables use). -/
def lowerChar (c : Char) : Char :=
  if h : 65 ≤ c.toNat ∧ c.toNat ≤ 90 then
    Char.ofNatAux (c.toNat + 32) (Or.inl (by omega))
  else c

/-- Model of Python `str.lower`. -/
def pyLower (s : String) : String :=
  ⟨s.data.map lowerChar⟩

/-- The character set Python `str.strip()` removes (Unicode whitespace). -/
def pyIsSpace (c : Char) : Bool :=
  c = '\x20' ∨ c = '\t' ∨ c = '\n' ∨ c = '\r' ∨ c = '\x0b' ∨ c = '\x0c' ∨
  c = '\x1c' ∨ c = '\x1d' ∨ c = '\x1e' ∨ c = '\x1f' ∨ c = '\x85' ∨ c = '\xa0' ∨
  c = '\u1680' ∨ c = '\u2000' ∨ c = '\u2001' ∨ c = '\u2002' ∨ c = '\u2003' ∨
  c = '\u2004' ∨ c = '\u2005' ∨ c = '\u2006' ∨ c = '\u2007' ∨ c = '\u2008' ∨
  c = '\u2009' ∨ c = '\u200a' ∨ c = '\u2028' ∨ c = '\u2029' ∨ c = '\u202f' ∨
  c = '\u205f' ∨ c = '\u3000'

/-- Model of Python `str.strip()` (no argument form). -/
def pyStrip (s : String) : String :=
  ⟨((s.data.dropWhile pyIsSpace).reverse.dropWhile pyIsSpace).reverse⟩

/-- The line-boundary characters of Python `str.splitlines`. -/
def pyLineBreak (c : Char) : Bool :=
  c = '\n' ∨ c = '\r' ∨ c = '\x0b' ∨ c = '\x0c' ∨ c = '\x1c' ∨ c = '\x1d' ∨
  c = '\x1e' ∨ c = '\x85' ∨ c = '\u2028' ∨ c = '\u2029'

/-- Worker for `pySplitlines`: `acc` holds the current line reversed, and
the flag records that the previous character was a line-breaking `\r`, so
that an immediately following `\n` is part of the same `\r\n` boundary. -/
def splitlinesAux : List Char → List Char → Bool → List String
  | [], acc, _ => if acc.isEmpty then [] else [⟨acc.reverse⟩]
  | c :: rest, acc, afterCR =>
      if afterCR ∧ c = '\n' then splitlinesAux rest [] false
      else if pyLineBreak c then
        (⟨acc.reverse⟩ : String) :: splitlinesAux rest [] (c = '\r')
      else splitlinesAux rest (c :: acc) false

/-- Model of Python `str.splitlines()`: splits at line boundaries (with
`\r\n` counted once), and a trailing boundary does not produce an empty
final line; the empty string yields `[]`. -/
def pySplitlines (s : String) : List String :=
  splitlinesAux s.data [] false

/-- Model of Python slicing `s[0:n]` (by code points, as Python indexes). -/
def pySlice (s : String) (n : Nat) : String :=
  ⟨s.data.take n⟩

/-- Is `pat` a contiguous sublist of the second argument?  Model of
Python's `in` operator on strings. -/
def listInfix (pat : List Char) : List Char → Bool
  | [] => pat.isEmpty
  | c :: rest => pat.isPrefixOf (c :: rest) || listInfix pat rest

/-- Model of Python `sub in s`. -/
def containsSub (s sub : String) : Bool :=
  listInfix sub.data s.data

/-- Model of Python `s.startswith(p)`. -/
def pyStartsWith (s p : String) : Bool :=
  p.data.isPrefixOf s.data

/-- Model of Python `s.endswith(p)`. -/
def pyEndsWith (s p : String) : Bool :=
  p.data.isSuffixOf s.data

/-- Model of Python `sep.join(xs)`. -/
def pyJoin (sep : String) : List String → String
  | [] => ""
  | [x] => x
  | x :: y :: rest => x ++ sep ++ pyJoin sep (y :: rest)

/-- Worker for `pyReplace`: replaces every occurrence of `o :: orest`
left to right, never rescanning replaced output, exactly like Python
`str.replace`.  The counter argument skips the tail of a match. -/
def replSkip (o : Char) (orest new : List Char) : Nat → List Char → List Char
  | _, [] => []
  | skip + 1, _ :: rest => replSkip o orest new skip rest
  | 0, c :: rest =>
      if c = o ∧ orest.isPrefixOf rest then
        new ++ replSkip o orest new orest.length rest
      else c :: replSkip o orest new 0 rest

/-- Model of Python `s.replace(old, new)` for non-empty `old` (the one use
in the source has `old = ".git"`): every non-overlapping occurrence is
replaced, scanning left to right. -/
def pyReplace (s old new : String) : String :=
  match old.data with
  | [] => s
  | o :: orest => ⟨replSkip o orest new.data 0 s.data⟩

/-- Worker for `basename`: accumulate the current path component, reset at
each separator. -/
def basenameAux : List Char → List Char → List Char
  | [], acc => acc.reverse
  | '/' :: rest, _ => basenameAux rest []
  | c :: rest, acc => basenameAux rest (c :: acc)

/-- Model of `os.path.basename` (POSIX): everything after the last `/`. -/
def basename (p : String) : String :=
  ⟨basenameAux p.data []⟩

/-- Model of `os.path.join` for two components (POSIX). -/
def joinPath (a b : String) : String :=
  if b.data.head? = some '/' then b
  else if a.data.isEmpty then b
  else if a.data.getLast? = some '/' then a ++ b
  else a ++ "/" ++ b

/-! ## Commit classifier and file-purpose inferencer (`logic.py` 38-69) -/

/-- Keyword table for `Setup` (first priority). -/
def kwSetup : List String := ["init", "setup", "initial"]

/-- Keyword table for `Feature` (second priority). -/
def kwFeature : List String := ["add", "feature", "implement"]

/-- Keyword table for `Fix` (third priority). -/
def kwFix : List String := ["fix", "bug", "issue"]

/-- Keyword table for `Refactor` (fourth priority). -/
def kwRefactor : List String := ["refactor", "cleanup"]

/-- `classify_importance` from `logic.py`: lower-case the message, then
test keyword containment in priority order, first match wins. -/
def classify_importance (message : String) : String :=
  let msg := pyLower message
  if kwSetup.any (fun k => containsSub msg k) then "Setup"
  else if kwFeature.any (fun k => containsSub msg k) then "Feature"
  else if kwFix.any (fun k => containsSub msg k) then "Fix"
  else if kwRefactor.any (fun k => containsSub msg k) then "Refactor"
  else if containsSub msg "test" then "Test"
  else "Other"

/-- `hasAnyKw m kws` is the keyword-containment test `classify_importance`
performs on the lower-cased message. -/
def hasAnyKw (message : String) (kws : List String) : Bool :=
  kws.any (fun k => containsSub (pyLower message) k)

/-- `infer_file_purpose` from `logic.py`: lower-case the filename, then
case-insensitive suffix dispatch in priority order. -/
def infer_file_purpose (filename : String) : String :=
  let fname := pyLower filename
  if pyEndsWith fname ".py" then "Python source code"
  else if pyEndsWith fname ".md" then "Documentation"
  else if pyEndsWith fname ".gitignore" then "Git ignore rules"
  else if pyEndsWith fname ".json" then "Configuration/data file"
  else if pyEndsWith fname ".yml" ∨ pyEndsWith fname ".yaml" then "Configuration file"
  else "Other"

/-! ## Date formatting (`datetime.utcfromtimestamp(..).strftime("%Y-%m-%d")`) -/

/-- Civil date (year, month, day) from days since 1970-01-01
(Gregorian calendar, era-based conversion). -/
def daysToCivil (z0 : Nat) : Nat × Nat × Nat :=
  let z := z0 + 719468
  let era := z / 146097
  let doe := z % 146097
  let yoe := (doe - doe / 1460 + doe / 36524 - doe / 146096) / 365
  let y := yoe + era * 400
  let doy := doe - (365 * yoe + yoe / 4 - yoe / 100)
  let mp := (5 * doy + 2) / 153
  let d := doy - (153 * mp + 2) / 5 + 1
  let m := if mp < 10 then mp + 3 else mp - 9
  (if m ≤ 2 then y + 1 else y, m, d)

/-- Zero-pad a number to width two, as `%m`/`%d` do. -/
def pad2 (n : Nat) : String :=
  if n < 10 then "0" ++ toString n else toString n

/-- Zero-pad a number to width four, as `%Y` does. -/
def pad4 (n : Nat) : String :=
  if n < 10 then "000" ++ toString n
  else if n < 100 then "00" ++ toString n
  else if n < 1000 then "0" ++ toString n
  else toString n

/-- Model of `datetime.utcfromtimestamp(ts).strftime("%Y-%m-%d")` for
non-negative POSIX timestamps, which is what git commit dates are. -/
def formatDate (ts : Nat) : String :=
  let ymd := daysToCivil (ts / 86400)
  pad4 ymd.1 ++ "-" ++ pad2 ymd.2.1 ++ "-" ++ pad2 ymd.2.2

/-! ## Data model: the commit as reported by GitPython, and the record
`extract_commit_memory` builds from it (`logic.py` 74-109).  A
`GitCommit` carries exactly the fields the extractor reads:
`commit.author` (`none` when the repository exposes no author identity),
`commit.committed_date`, `commit.message`, the ordered per-file statistics
`commit.stats.files` as (name, insertions, deletions) triples, and the
whole-commit totals from `commit.stats.total`. -/

/-- Input side: one commit as history reports it. -/
structure GitCommit where
  author : Option String
  committed_date : Nat
  message : String
  stats_files : List (String × Nat × Nat)
  stats_insertions : Nat
  stats_deletions : Nat
deriving DecidableEq, Repr

/-- One element of `key_files` in the extracted record. -/
structure FileEntry where
  name : String
  purpose : String
  insertions : Nat
  deletions : Nat
deriving DecidableEq, Repr

/-- The structured record (`memory` dict) built per commit. -/
structure CommitRecord where
  commit_number : Nat
  author : String
  date : String
  message : String
  type : String
  summary : String
  key_files : List FileEntry
  insertions : Nat
  deletions : Nat
  files_changed_count : Nat
deriving DecidableEq, Repr

/-- The per-file entry built in the `important_files` loop. -/
def mkFileEntry (e : String × Nat × Nat) : FileEntry :=
  { name := e.1
    purpose := infer_file_purpose e.1
    insertions := e.2.1
    deletions := e.2.2 }

/-- The record appended for one commit at 1-based position `idx`.  Python
evaluates `commit.message.strip().splitlines()[0]` for the summary, which
raises `IndexError` when the stripped message has no lines (i.e. is
empty); that failure is the `none` case. -/
def buildRecord (idx top_files : Nat) (commit : GitCommit) : Option CommitRecord :=
  match pySplitlines (pyStrip commit.message) with
  | [] => none
  | headline :: _ =>
      some { commit_number := idx
             author := commit.author.getD "Unknown"
             date := formatDate commit.committed_date
             message := pyStrip commit.message
             type := classify_importance commit.message
             summary := headline
             key_files := (commit.stats_files.take top_files).map mkFileEntry
             insertions := commit.stats_insertions
             deletions := commit.stats_deletions
             files_changed_count := commit.stats_files.length }

/-- The extraction loop `for idx, commit in enumerate(commits, 1)`. -/
def extractFrom (idx top_files : Nat) : List GitCommit → Option (List CommitRecord)
  | [] => some []
  | c :: rest =>
      match buildRecord idx top_files c, extractFrom (idx + 1) top_files rest with
      | some r, some rs => some (r :: rs)
      | _, _ => none

/-- `extract_commit_memory` from `logic.py` (defaults `max_commits = 50`,
`top_files = 5`): history hands over up to `max_commits` commits
newest-first, the list is reversed to oldest-first, and records are
numbered from 1. -/
def extract_commit_memory (commits : List GitCommit) (max_commits top_files : Nat) :
    Option (List CommitRecord) :=
  extractFrom 1 top_files ((commits.take max_commits).reverse)

/-! ## Summarizer and narrative requester (`logic.py` 114-183) -/

/-- The single-line rendering built for a record, both in
`summarize_commits` and in the detailed loop of `generate_story` (the two
f-strings in the source are identical up to the trailing newline). -/
def renderCommit (c : CommitRecord) : String :=
  "Commit " ++ toString c.commit_number ++ " by " ++ c.author ++ " on " ++
  c.date ++ " [" ++ c.type ++ "]: " ++ c.summary ++ ". Files changed (" ++
  toString c.files_changed_count ++ "): " ++
  pyJoin ", " (c.key_files.map (fun f =>
    f.name ++ " (" ++ f.purpose ++ "): +" ++ toString f.insertions ++ "/-" ++
    toString f.deletions)) ++
  ". Insertions: " ++ toString c.insertions ++ ", Deletions: " ++
  toString c.deletions ++ "."

/-- The body of the `summarize_commits` loop for one record: truncate the
rendering to `max_tokens_per_commit` characters and append the marker
when it is too long. -/
def summarize_one (max_tokens_per_commit : Nat) (c : CommitRecord) : String :=
  let text := renderCommit c
  if text.length > max_tokens_per_commit then
    pySlice text max_tokens_per_commit ++ " [...]"
  else text

/-- `summarize_commits` from `logic.py` (default
`max_tokens_per_commit = 200`). -/
def summarize_commits (memory : List CommitRecord)
    (max_tokens_per_commit : Nat) : List String :=
  memory.map (summarize_one max_tokens_per_commit)

/-- The slice `memory[-max_recent:]` (`logic.py` 152, and the identical
slice in `streamlit_app.py` 49): for positive `max_recent` this is the
last `max_recent` elements, but `memory[-0:]` is the whole list. -/
def recent_memory {α : Type} (memory : List α) (max_recent : Nat) : List α :=
  if max_recent = 0 then memory else memory.drop (memory.length - max_recent)

/-- The slice `memory[:-max_recent]` (`logic.py` 153, `streamlit_app.py`
50): for positive `max_recent` everything but the last `max_recent`
elements, but `memory[:-0]` is empty. -/
def older_memory {α : Type} (memory : List α) (max_recent : Nat) : List α :=
  if max_recent = 0 then [] else memory.take (memory.length - max_recent)

/-- Failure surface of the narrative requester. -/
inductive StoryError where
  | missingKey
deriving DecidableEq, Repr

/-- One message of the chat request. -/
structure ChatMessage where
  role : String
  content : String
deriving DecidableEq, Repr

/-- The request `generate_story` sends to the external service; the
sampling temperature is passed through untouched, so its type is a
parameter. -/
structure ChatRequest (τ : Type) where
  model : String
  temperature : τ
  messages : List ChatMessage
deriving DecidableEq, Repr

/-- `_ensure_openai` from `logic.py`: `os.getenv` yields `none` when the
variable is unset, and Python `if not key` also treats an empty string as
missing.  Success returns the client handle (opaque here). -/
def ensure_openai (key : Option String) : Except StoryError Unit :=
  match key with
  | none => Except.error StoryError.missingKey
  | some k => if k = "" then Except.error StoryError.missingKey else Except.ok ()

/-- The system prompt of `generate_story`, verbatim. -/
def sysPromptText : String :=
  "You are a narrator. Write the repository\x27s journey one detailed paragraph per commit. " ++
  "Start each paragraph with \x27Commit X:\x27. For each commit, mention key files changed, " ++
  "their purpose/type, insertions/deletions, and overall impact. " ++
  "Keep it concise, engaging, and informative. Do NOT include commit hashes."

/-- The `user_text` prompt body `generate_story` assembles: summarized
older commits, then detailed recent commits, then the suffix
instruction. -/
def userPromptText (memory : List CommitRecord) (max_recent : Nat) : String :=
  let recent := recent_memory memory max_recent
  let older := older_memory memory max_recent
  let summarized_older := summarize_commits older 200
  let t1 := summarized_older.foldl (fun acc c => acc ++ c ++ "\n")
    "Repository commit memory:\n"
  let t2 := recent.foldl (fun acc c => acc ++ renderCommit c ++ "\n") t1
  t2 ++ "\nWrite a narrated story with one paragraph per commit."

/-- `generate_story` from `logic.py` (defaults `temperature = 0.3`,
`max_recent = 10`), modelled up to the network boundary: the returned
value is the request the code hands to the external service, and the
error is the `RuntimeError` of `_ensure_openai`, raised first, before the
prompt is assembled and before any network call. -/
def generate_story {τ : Type} (key : Option String) (memory : List CommitRecord)
    (temperature : τ) (max_recent : Nat) : Except StoryError (ChatRequest τ) :=
  match ensure_openai key with
  | Except.error e => Except.error e
  | Except.ok _ =>
      Except.ok { model := "gpt-4o-mini"
                  temperature := temperature
                  messages := [⟨"system", sysPromptText⟩,
                               ⟨"user", userPromptText memory max_recent⟩] }

/-- Does the requester reach the external service (i.e. produce a
request)? -/
def issuesRequest {τ : Type} : Except StoryError (ChatRequest τ) → Bool
  | Except.ok _ => true
  | Except.error _ => false

/-- The guard in `streamlit_app.py` (line 43): the app shows an error for
an empty record list and only otherwise runs `generate_story`. -/
def streamlit_runs_story (memory : List CommitRecord) : Bool :=
  !memory.isEmpty

/-! ## Repository accessor (`logic.py` 24-33) -/

/-- What `get_repo` does with the filesystem and network. -/
inductive RepoAction where
  | cloneAndOpen (url : String) (localPath : String)
  | openCached (localPath : String)
  | openLocal (path : String)
deriving DecidableEq, Repr

/-- The deterministic cache path `get_repo` computes for a remote URL:
`os.path.join(tempfile.gettempdir(), "repo_cache", basename.replace(".git", ""))`
with the temp directory as a parameter. -/
def cachePathFor (tmpdir url : String) : String :=
  joinPath (joinPath tmpdir "repo_cache") (pyReplace (basename url) ".git" "")

/-- `get_repo` from `logic.py`: `tmpdir` models `tempfile.gettempdir()`
and `pathExists` models `os.path.exists` (the `os.makedirs` call only
creates the cache directory).  A remote location is recognized by the
`http` prefix; the clone happens only when nothing exists at the cache
path. -/
def get_repo (tmpdir : String) (pathExists : String → Bool)
    (repo_path : String) : RepoAction :=
  if pyStartsWith repo_path "http" then
    let local_path := cachePathFor tmpdir repo_path
    if pathExists local_path then RepoAction.openCached local_path
    else RepoAction.cloneAndOpen repo_path local_path
  else RepoAction.openLocal repo_path

/-! ## Helper lemmas -/

theorem lowerChar_toNat_of_upper (c : Char) (h : 65 ≤ c.toNat ∧ c.toNat ≤ 90) :
    (lowerChar c).toNat = c.toNat + 32 := by
  unfold lowerChar
  rw [dif_pos h]
  rfl

theorem lowerChar_eq_self (c : Char) (h : ¬ (65 ≤ c.toNat ∧ c.toNat ≤ 90)) :
    lowerChar c = c := by
  unfold lowerChar
  rw [dif_neg h]

theorem lowerChar_idem (c : Char) : lowerChar (lowerChar c) = lowerChar c := by
  by_cases h : 65 ≤ c.toNat ∧ c.toNat ≤ 90
  · have h2 := lowerChar_toNat_of_upper c h
    exact lowerChar_eq_self _ (by omega)
  · rw [lowerChar_eq_self c h]
    exact lowerChar_eq_self c h

theorem pyLower_idem (s : String) : pyLower (pyLower s) = pyLower s := by
  unfold pyLower
  refine congrArg String.mk ?_
  show (s.data.map lowerChar).map lowerChar = s.data.map lowerChar
  rw [List.map_map]
  exact List.map_congr_left (fun a _ => lowerChar_idem a)

theorem splitlinesAux_ne_nil :
    ∀ (l acc : List Char), l ≠ [] ∨ acc ≠ [] →
      splitlinesAux l acc false ≠ [] := by
  intro l
  induction l with
  | nil =>
      intro acc h
      rcases h with h | h
      · exact absurd rfl h
      · rcases acc with _ | ⟨a, as⟩
        · exact absurd rfl h
        · simp [splitlinesAux]
  | cons c rest ih =>
      intro acc _
      show splitlinesAux (c :: rest) acc false ≠ []
      unfold splitlinesAux
      rw [if_neg (by simp)]
      by_cases hb : pyLineBreak c = true
      · rw [if_pos hb]
        simp
      · rw [if_neg (by simpa using hb)]
        exact ih (c :: acc) (Or.inr (by simp))

theorem exists_not_mem_dropWhile (p : Char → Bool) :
    ∀ (l : List Char), (∃ x, x ∈ l ∧ p x = false) →
      ∃ x, x ∈ l.dropWhile p ∧ p x = false := by
  intro l
  induction l with
  | nil => rintro ⟨x, hx, _⟩; cases hx
  | cons c rest ih =>
      rintro ⟨x, hx, hpx⟩
      by_cases hc : p c = true
      · rw [List.dropWhile_cons_of_pos hc]
        apply ih
        rcases List.mem_cons.mp hx with rfl | hx2
        · rw [hc] at hpx; cases hpx
        · exact ⟨x, hx2, hpx⟩
      · rw [List.dropWhile_cons_of_neg hc]
        exact ⟨c, List.mem_cons_self c rest, by simpa using hc⟩

theorem pyStrip_data_ne_nil (s : String)
    (h : s.data.any (fun ch => !pyIsSpace ch) = true) :
    (pyStrip s).data ≠ [] := by
  obtain ⟨x, hx, hnx⟩ := List.any_eq_true.mp h
  have hx1 : pyIsSpace x = false := by simpa using hnx
  obtain ⟨y, hy, hpy⟩ :=
    exists_not_mem_dropWhile pyIsSpace s.data ⟨x, hx, hx1⟩
  obtain ⟨z, hz, hpz⟩ :=
    exists_not_mem_dropWhile pyIsSpace (s.data.dropWhile pyIsSpace).reverse
      ⟨y, List.mem_reverse.mpr hy, hpy⟩
  have : ((s.data.dropWhile pyIsSpace).reverse.dropWhile pyIsSpace).reverse ≠ [] := by
    simpa using List.ne_nil_of_mem hz
  simpa [pyStrip] using this

theorem pySplitlines_ne_nil (s : String) (h : s.data ≠ []) :
    pySplitlines s ≠ [] :=
  splitlinesAux_ne_nil s.data [] (Or.inl h)

theorem buildRecord_isSome_of (idx t : Nat) (c : GitCommit)
    (h : pySplitlines (pyStrip c.message) ≠ []) :
    (buildRecord idx t c).isSome = true := by
  unfold buildRecord
  cases hm : pySplitlines (pyStrip c.message) with
  | nil => exact absurd hm h
  | cons a l => simp

theorem extractFrom_isSome (t : Nat) :
    ∀ (cs : List GitCommit) (idx : Nat),
      (∀ c, c ∈ cs → pySplitlines (pyStrip c.message) ≠ []) →
      (extractFrom idx t cs).isSome = true := by
  intro cs
  induction cs with
  | nil => intro idx _; rfl
  | cons c rest ih =>
      intro idx hall
      have hb : (buildRecord idx t c).isSome = true :=
        buildRecord_isSome_of idx t c (hall c (List.mem_cons_self c rest))
      have hr : (extractFrom (idx + 1) t rest).isSome = true :=
        ih (idx + 1) (fun c2 hc2 => hall c2 (List.mem_cons_of_mem c hc2))
      unfold extractFrom
      cases hb2 : buildRecord idx t c with
      | none => rw [hb2] at hb; cases hb
      | some r =>
          cases hr2 : extractFrom (idx + 1) t rest with
          | none => rw [hr2] at hr; cases hr
          | some rs => simp

theorem extractFrom_length_get (t : Nat) :
    ∀ (cs : List GitCommit) (idx : Nat) (rs : List CommitRecord),
      extractFrom idx t cs = some rs →
      rs.length = cs.length ∧
      ∀ i (hi : i < cs.length) (hj : i < rs.length),
        buildRecord (idx + i) t (cs.get ⟨i, hi⟩) = some (rs.get ⟨i, hj⟩) := by
  intro cs
  induction cs with
  | nil =>
      intro idx rs h
      simp only [extractFrom, Option.some.injEq] at h
      subst h
      exact ⟨rfl, fun i hi => absurd hi (by simp)⟩
  | cons c rest ih =>
      intro idx rs h
      unfold extractFrom at h
      cases hb : buildRecord idx t c with
      | none => rw [hb] at h; exact absurd h (by simp)
      | some r =>
          rw [hb] at h
          cases hr : extractFrom (idx + 1) t rest with
          | none => rw [hr] at h; exact absurd h (by simp)
          | some rs2 =>
              rw [hr] at h
              simp only [Option.some.injEq] at h
              subst h
              obtain ⟨hlen, hget⟩ := ih (idx + 1) rs2 hr
              refine ⟨by simp [hlen], ?_⟩
              intro i hi hj
              cases i with
              | zero => simpa using hb
              | succ n =>
                  have hn := hget n (by simpa using hi) (by simpa using hj)
                  have harith : idx + (n + 1) = idx + 1 + n := by omega
                  rw [harith]
                  simpa using hn

theorem extractFrom_mem (t : Nat) :
    ∀ (cs : List GitCommit) (idx : Nat) (rs : List CommitRecord),
      extractFrom idx t cs = some rs →
      ∀ r, r ∈ rs → ∃ i c, c ∈ cs ∧ buildRecord i t c = some r := by
  intro cs
  induction cs with
  | nil =>
      intro idx rs h r hr
      simp only [extractFrom, Option.some.injEq] at h
      subst h
      cases hr
  | cons c rest ih =>
      intro idx rs h r hr
      unfold extractFrom at h
      cases hb : buildRecord idx t c with
      | none => rw [hb] at h; exact absurd h (by simp)
      | some r0 =>
          rw [hb] at h
          cases hrest : extractFrom (idx + 1) t rest with
          | none => rw [hrest] at h; exact absurd h (by simp)
          | some rs2 =>
              rw [hrest] at h
              simp only [Option.some.injEq] at h
              subst h
              rcases List.mem_cons.mp hr with rfl | hr2
              · exact ⟨idx, c, List.mem_cons_self c rest, hb⟩
              · obtain ⟨i, c2, hc2, hbc⟩ := ih (idx + 1) rs2 hrest r hr2
                exact ⟨i, c2, List.mem_cons_of_mem c hc2, hbc⟩

theorem buildRecord_fields (idx t : Nat) (c : GitCommit) (r : CommitRecord)
    (h : buildRecord idx t c = some r) :
    r.commit_number = idx ∧
    r.key_files = (c.stats_files.take t).map mkFileEntry := by
  unfold buildRecord at h
  cases hm : pySplitlines (pyStrip c.message) with
  | nil => rw [hm] at h; cases h
  | cons a l =>
      rw [hm] at h
      simp only [Option.some.injEq] at h
      subst h
      exact ⟨rfl, rfl⟩

theorem getD_map {α β : Type} (f : α → β) (d1 : α) (d2 : β) :
    ∀ (l : List α) (i : Nat), i < l.length →
      (l.map f).getD i d2 = f (l.getD i d1) := by
  intro l
  induction l with
  | nil => intro i hi; exact absurd hi (by simp)
  | cons a as ih =>
      intro i hi
      cases i with
      | zero => rfl
      | succ n =>
          have hn : n < as.length := by simpa using hi
          simpa using ih n hn

theorem pySlice_length (s : String) (n : Nat) :
    (pySlice s n).length = min n s.length := by
  show (s.data.take n).length = min n s.data.length
  exact List.length_take n s.data

/-! ## Concrete fixtures used by witnesses and counterexamples -/

/-- Fallback record for positional access in statements. -/
def emptyRecord : CommitRecord :=
  { commit_number := 0, author := "", date := "", message := "", type := ""
    summary := "", key_files := [], insertions := 0, deletions := 0
    files_changed_count := 0 }

/-- A one-commit history (newest-first input, as history reports it). -/
def c1demo : GitCommit :=
  { author := some "Alice", committed_date := 0, message := "Initial commit"
    stats_files := [("README.md", 10, 0)], stats_insertions := 10
    stats_deletions := 0 }

/-- The record extraction builds from `c1demo`. -/
def r1demo : CommitRecord :=
  { commit_number := 1, author := "Alice", date := "1970-01-01"
    message := "Initial commit", type := "Setup", summary := "Initial commit"
    key_files := [{ name := "README.md", purpose := "Documentation"
                    insertions := 10, deletions := 0 }]
    insertions := 10, deletions := 0, files_changed_count := 1 }

/-- A commit whose message is whitespace-only. -/
def wsCommit : GitCommit :=
  { author := some "Alice", committed_date := 0, message := "   \n "
    stats_files := [], stats_insertions := 0, stats_deletions := 0 }

/-- A commit touching three files, for the `top_files` cut-off. -/
def c3files : GitCommit :=
  { author := some "Bob", committed_date := 0, message := "Add stuff"
    stats_files := [("a.py", 1, 2), ("b.md", 3, 4), ("c.txt", 5, 6)]
    stats_insertions := 9, stats_deletions := 12 }

/-- The record extraction builds from `c3files` with `top_files = 2`. -/
def r3demo : CommitRecord :=
  { commit_number := 1, author := "Bob", date := "1970-01-01"
    message := "Add stuff", type := "Feature", summary := "Add stuff"
    key_files := [{ name := "a.py", purpose := "Python source code"
                    insertions := 1, deletions := 2 },
                  { name := "b.md", purpose := "Documentation"
                    insertions := 3, deletions := 4 }]
    insertions := 9, deletions := 12, files_changed_count := 3 }

/-! ## Claims -/

/-- Claim C1 (corrected): the detailed/summarized partition.  For
`1 ≤ r ≤ n` the slices `memory[-r:]` and `memory[:-r]` are exactly the
last `r` records and the first `n - r` records, and they partition the
sequence; the spec scenario (`r = 1` on a 3-record sequence) detailes
only the last record.  The `r = 0` case of the original claim is refuted
by `recent_partition_cex`: Python `memory[-0:]` is the whole list, so
every record lands in the detailed set and none in the summarized set. -/
theorem recent_partition_spec :
    (∀ (α : Type) (memory : List α) (r : Nat), 1 ≤ r → r ≤ memory.length →
      recent_memory memory r = memory.drop (memory.length - r) ∧
      (recent_memory memory r).length = r ∧
      older_memory memory r = memory.take (memory.length - r) ∧
      (older_memory memory r).length = memory.length - r ∧
      older_memory memory r ++ recent_memory memory r = memory) ∧
    (recent_memory [10, 20, 30] 1 = [30] ∧
      older_memory [10, 20, 30] 1 = [10, 20]) := by
  constructor
  · intro α memory r h1 h2
    have hr : r ≠ 0 := by omega
    refine ⟨by simp [recent_memory, hr], ?_, by simp [older_memory, hr], ?_, ?_⟩
    · simp only [recent_memory, hr, if_false, List.length_drop]
      omega
    · simp only [older_memory, hr, if_false, List.length_take]
      omega
    · simp only [recent_memory, older_memory, hr, if_false]
      exact List.take_append_drop (memory.length - r) memory
  · constructor <;> rfl

/-- Witness for C1 at a concrete input. -/
theorem recent_partition_witness :
    recent_memory [(1 : Nat), 2, 3] 1 = [3] ∧
    older_memory [(1 : Nat), 2, 3] 1 = [1, 2] := by
  have h := recent_partition_spec.1 Nat [1, 2, 3] 1 (by decide) (by decide)
  exact ⟨by simpa using h.1, by simpa using h.2.2.1⟩

/-- Counterexample for C1 as stated: with `maxRecentDetailed = 0` on a
non-empty sequence, the code puts every record in the detailed set and
none in the summarized set, while the claim requires the opposite. -/
theorem recent_partition_cex :
    recent_memory [(10 : Nat), 20, 30] 0 = [10, 20, 30] ∧
    older_memory [(10 : Nat), 20, 30] 0 = [] ∧
    ([10, 20, 30] : List Nat) ≠ [] := ⟨rfl, rfl, by decide⟩

/-- Claim C2 (confirmed): `summarize_commits` yields one string per
record in order; each is the natural rendering unchanged when its length
is at most `L`, and otherwise the first `L` characters of the rendering
followed by the fixed marker `" [...]"`, making the truncated result
exactly `L` plus the marker length. -/
theorem summarize_commits_spec (memory : List CommitRecord) (L : Nat)
    (_hL : 0 < L) :
    (summarize_commits memory L).length = memory.length ∧
    ∀ i, i < memory.length →
      ((renderCommit (memory.getD i emptyRecord)).length ≤ L →
        (summarize_commits memory L).getD i "" =
          renderCommit (memory.getD i emptyRecord)) ∧
      (L < (renderCommit (memory.getD i emptyRecord)).length →
        (summarize_commits memory L).getD i "" =
          pySlice (renderCommit (memory.getD i emptyRecord)) L ++ " [...]" ∧
        ((summarize_commits memory L).getD i "").length =
          L + (" [...]").length) := by
  constructor
  · simp [summarize_commits]
  · intro i hi
    have hmap : (summarize_commits memory L).getD i "" =
        summarize_one L (memory.getD i emptyRecord) := by
      simpa [summarize_commits] using
        getD_map (summarize_one L) emptyRecord "" memory i hi
    constructor
    · intro hle
      rw [hmap]
      unfold summarize_one
      rw [if_neg (by omega)]
    · intro hgt
      rw [hmap]
      unfold summarize_one
      rw [if_pos (by omega)]
      refine ⟨rfl, ?_⟩
      rw [String.length_append, pySlice_length]
      have : min L (renderCommit (memory.getD i emptyRecord)).length = L :=
        Nat.min_eq_left (Nat.le_of_lt hgt)
      rw [this]

set_option maxRecDepth 8192 in
/-- Witness for C2: a record whose rendering exceeds ten characters is
truncated to ten characters plus the marker. -/
theorem summarize_commits_witness :
    (summarize_commits [r1demo] 10).getD 0 "" =
      pySlice (renderCommit r1demo) 10 ++ " [...]" ∧
    ((summarize_commits [r1demo] 10).getD 0 "").length =
      10 + (" [...]").length :=
  ((summarize_commits_spec [r1demo] 10 (by decide)).2 0 (by decide)).2
    (by decide)

/-- Claim C3 (confirmed): `classify_importance` lower-cases the message
(classification is invariant under lower-casing) and tests keyword
containment in strict priority order Setup, Feature, Fix, Refactor, Test
with first match winning, falling back to `"Other"`; a message containing
both `"fix"` and `"test"` is classified `Fix`, the empty message is
`Other`, and the function is total by construction. -/
theorem classify_importance_spec :
    (∀ m, classify_importance m = classify_importance (pyLower m)) ∧
    (∀ m, hasAnyKw m kwSetup = true → classify_importance m = "Setup") ∧
    (∀ m, hasAnyKw m kwSetup = false → hasAnyKw m kwFeature = true →
      classify_importance m = "Feature") ∧
    (∀ m, hasAnyKw m kwSetup = false → hasAnyKw m kwFeature = false →
      hasAnyKw m kwFix = true → classify_importance m = "Fix") ∧
    (∀ m, hasAnyKw m kwSetup = false → hasAnyKw m kwFeature = false →
      hasAnyKw m kwFix = false → hasAnyKw m kwRefactor = true →
      classify_importance m = "Refactor") ∧
    (∀ m, hasAnyKw m kwSetup = false → hasAnyKw m kwFeature = false →
      hasAnyKw m kwFix = false → hasAnyKw m kwRefactor = false →
      containsSub (pyLower m) "test" = true →
      classify_importance m = "Test") ∧
    (∀ m, hasAnyKw m kwSetup = false → hasAnyKw m kwFeature = false →
      hasAnyKw m kwFix = false → hasAnyKw m kwRefactor = false →
      containsSub (pyLower m) "test" = false →
      classify_importance m = "Other") ∧
    classify_importance "Fix broken test" = "Fix" ∧
    classify_importance "" = "Other" := by
  refine ⟨?_, ?_, ?_, ?_, ?_, ?_, ?_, ?_, ?_⟩
  · intro m
    simp only [classify_importance, pyLower_idem]
  · intro m h1
    unfold hasAnyKw at h1
    simp [classify_importance, h1]
  · intro m h1 h2
    unfold hasAnyKw at h1 h2
    simp [classify_importance, h1, h2]
  · intro m h1 h2 h3
    unfold hasAnyKw at h1 h2 h3
    simp [classify_importance, h1, h2, h3]
  · intro m h1 h2 h3 h4
    unfold hasAnyKw at h1 h2 h3 h4
    simp [classify_importance, h1, h2, h3, h4]
  · intro m h1 h2 h3 h4 h5
    unfold hasAnyKw at h1 h2 h3 h4
    simp [classify_importance, h1, h2, h3, h4, h5]
  · intro m h1 h2 h3 h4 h5
    unfold hasAnyKw at h1 h2 h3 h4
    simp [classify_importance, h1, h2, h3, h4, h5]
  · rfl
  · rfl

/-- Witness for C3 at a concrete input: the keyword priority applied to a
message that matches only the `Fix` table. -/
theorem classify_importance_witness :
    classify_importance "fix crash" = "Fix" :=
  classify_importance_spec.2.2.2.1 "fix crash" rfl rfl rfl

/-- Claim C9 (confirmed): `infer_file_purpose` is case-insensitive on the
filename (it only looks at the lower-cased name, so `f` and
`pyLower f` get the same label, in particular `"README.MD"` and
`"readme.md"`), and dispatches on the suffix in priority order
`.py`, `.md`, `.gitignore`, `.json`, `.yml`/`.yaml`, else `"Other"`,
first match winning; it is total by construction. -/
theorem infer_file_purpose_spec :
    (∀ f, infer_file_purpose f = infer_file_purpose (pyLower f)) ∧
    infer_file_purpose "README.MD" = "Documentation" ∧
    infer_file_purpose "readme.md" = "Documentation" ∧
    (∀ f, pyEndsWith (pyLower f) ".py" = true →
      infer_file_purpose f = "Python source code") ∧
    (∀ f, pyEndsWith (pyLower f) ".py" = false →
      pyEndsWith (pyLower f) ".md" = true →
      infer_file_purpose f = "Documentation") ∧
    (∀ f, pyEndsWith (pyLower f) ".py" = false →
      pyEndsWith (pyLower f) ".md" = false →
      pyEndsWith (pyLower f) ".gitignore" = true →
      infer_file_purpose f = "Git ignore rules") ∧
    (∀ f, pyEndsWith (pyLower f) ".py" = false →
      pyEndsWith (pyLower f) ".md" = false →
      pyEndsWith (pyLower f) ".gitignore" = false →
      pyEndsWith (pyLower f) ".json" = true →
      infer_file_purpose f = "Configuration/data file") ∧
    (∀ f, pyEndsWith (pyLower f) ".py" = false →
      pyEndsWith (pyLower f) ".md" = false →
      pyEndsWith (pyLower f) ".gitignore" = false →
      pyEndsWith (pyLower f) ".json" = false →
      pyEndsWith (pyLower f) ".yml" = true ∨
        pyEndsWith (pyLower f) ".yaml" = true →
      infer_file_purpose f = "Configuration file") ∧
    (∀ f, pyEndsWith (pyLower f) ".py" = false →
      pyEndsWith (pyLower f) ".md" = false →
      pyEndsWith (pyLower f) ".gitignore" = false →
      pyEndsWith (pyLower f) ".json" = false →
      pyEndsWith (pyLower f) ".yml" = false →
      pyEndsWith (pyLower f) ".yaml" = false →
      infer_file_purpose f = "Other") := by
  refine ⟨?_, rfl, rfl, ?_, ?_, ?_, ?_, ?_, ?_⟩
  · intro f
    simp only [infer_file_purpose, pyLower_idem]
  · intro f h1
    simp [infer_file_purpose, h1]
  · intro f h1 h2
    simp [infer_file_purpose, h1, h2]
  · intro f h1 h2 h3
    simp [infer_file_purpose, h1, h2, h3]
  · intro f h1 h2 h3 h4
    simp [infer_file_purpose, h1, h2, h3, h4]
  · intro f h1 h2 h3 h4 h5
    rcases h5 with h5 | h5 <;> simp [infer_file_purpose, h1, h2, h3, h4, h5]
  · intro f h1 h2 h3 h4 h5 h6
    simp [infer_file_purpose, h1, h2, h3, h4, h5, h6]

/-- Witness for C9 at a concrete input: an upper-case Python filename. -/
theorem infer_file_purpose_witness :
    infer_file_purpose "SCRIPT.PY" = "Python source code" :=
  infer_file_purpose_spec.2.2.2.1 "SCRIPT.PY" rfl

/-- Claim C4 (confirmed): `changed_file_entries` (`key_files`) is the
positional prefix of the per-file statistics: exactly the first
`min top_files total_files` entries in reported order (mapped through the
purpose inferencer, never sorted), so every extracted record has at most
`top_files` entries. -/
theorem top_files_spec :
    (∀ (idx t : Nat) (c : GitCommit) (r : CommitRecord),
      buildRecord idx t c = some r →
      r.key_files = (c.stats_files.take t).map mkFileEntry ∧
      r.key_files.length = min t c.stats_files.length) ∧
    (∀ (commits : List GitCommit) (m t : Nat) (rs : List CommitRecord),
      extract_commit_memory commits m t = some rs →
      ∀ r, r ∈ rs → r.key_files.length ≤ t) := by
  have hone : ∀ (idx t : Nat) (c : GitCommit) (r : CommitRecord),
      buildRecord idx t c = some r →
      r.key_files = (c.stats_files.take t).map mkFileEntry ∧
      r.key_files.length = min t c.stats_files.length := by
    intro idx t c r h
    have h2 := (buildRecord_fields idx t c r h).2
    refine ⟨h2, ?_⟩
    rw [h2]
    simp
  refine ⟨hone, ?_⟩
  intro commits m t rs h r hr
  unfold extract_commit_memory at h
  obtain ⟨i, c, _, hb⟩ := extractFrom_mem t _ 1 rs h r hr
  have hlen := (hone i t c r hb).2
  rw [hlen]
  exact Nat.min_le_left t c.stats_files.length

set_option maxRecDepth 8192 in
/-- Witness for C4 at a concrete input: a commit touching three files,
extracted with `top_files = 2`, keeps exactly the first two entries. -/
theorem top_files_witness :
    r3demo.key_files = (c3files.stats_files.take 2).map mkFileEntry ∧
    r3demo.key_files.length = min 2 c3files.stats_files.length :=
  top_files_spec.1 1 2 c3files r3demo rfl

/-- Claim C6 (confirmed): extraction reverses the newest-first history to
oldest-first before numbering, so the record at position `i` (0-based)
is built from the `i`-th element of the reversed, truncated history with
`commit_number = i + 1`; sequence numbers are therefore contiguous from 1
and strictly increasing. -/
theorem sequence_numbering_spec (commits : List GitCommit) (m t : Nat)
    (rs : List CommitRecord)
    (h : extract_commit_memory commits m t = some rs) :
    rs.length = min m commits.length ∧
    (∀ i (hi : i < rs.length), (rs.get ⟨i, hi⟩).commit_number = i + 1) ∧
    (∀ i (hi : i < rs.length) (hj : i < ((commits.take m).reverse).length),
      buildRecord (i + 1) t (((commits.take m).reverse).get ⟨i, hj⟩) =
        some (rs.get ⟨i, hi⟩)) := by
  unfold extract_commit_memory at h
  obtain ⟨hlen, hget⟩ := extractFrom_length_get t _ 1 rs h
  have hcs : ((commits.take m).reverse).length = min m commits.length := by
    simp
  refine ⟨by rw [hlen, hcs], ?_, ?_⟩
  · intro i hi
    have hic : i < ((commits.take m).reverse).length := by omega
    have hb := hget i hic hi
    have hnum := (buildRecord_fields _ _ _ _ hb).1
    omega
  · intro i hi hj
    have hb := hget i hj hi
    rw [show i + 1 = 1 + i by omega]
    exact hb

set_option maxRecDepth 8192 in
/-- Witness for C6 at a concrete input: a single-commit history and the
record it extracts, with sequence number 1. -/
theorem sequence_numbering_witness :
    extract_commit_memory [c1demo] 50 5 = some [r1demo] ∧
    r1demo.commit_number = 1 := by
  refine ⟨rfl, ?_⟩
  have h := (sequence_numbering_spec [c1demo] 50 5 [r1demo] rfl).2.1 0
    (by decide)
  simpa using h

/-- Claim C10 (confirmed): extraction is total exactly when every
traversed commit message has a non-whitespace character; a whitespace-only
message makes `commit.message.strip().splitlines()[0]` index an empty
list, so extraction fails instead of producing a record sequence. -/
theorem headline_totality_spec :
    (∀ (commits : List GitCommit) (m t : Nat),
      (∀ c, c ∈ commits.take m →
        c.message.data.any (fun ch => !pyIsSpace ch) = true) →
      (extract_commit_memory commits m t).isSome = true) ∧
    extract_commit_memory [wsCommit] 50 5 = none := by
  constructor
  · intro commits m t hall
    unfold extract_commit_memory
    apply extractFrom_isSome
    intro c hc
    have hc2 : c ∈ commits.take m := List.mem_reverse.mp hc
    exact pySplitlines_ne_nil _ (pyStrip_data_ne_nil c.message (hall c hc2))
  · rfl

set_option maxRecDepth 8192 in
/-- Witness for C10 at a concrete input: a history whose only message has
non-whitespace characters extracts successfully. -/
theorem headline_totality_witness :
    (extract_commit_memory [c1demo] 50 5).isSome = true :=
  headline_totality_spec.1 [c1demo] 50 5 (by decide)

/-- Claim C5 (corrected): extraction of a zero-commit history returns the
empty sequence (not an error), and the UI caller short-circuits on an
empty record list; but `generate_story` itself, handed an empty sequence
with a credential present, still issues a service request whose user
prompt is just the fixed preamble and suffix — the claimed
must-not-invoke behaviour lives only in the caller, refuted for the
narrative step itself by `empty_history_cex`. -/
theorem empty_history_spec :
    (∀ m t : Nat, extract_commit_memory [] m t = some []) ∧
    (∀ memory : List CommitRecord,
      streamlit_runs_story memory = !memory.isEmpty) ∧
    streamlit_runs_story [] = false ∧
    generate_story (some "key") ([] : List CommitRecord) (0 : Nat) 10 =
      Except.ok { model := "gpt-4o-mini", temperature := 0
                  messages := [⟨"system", sysPromptText⟩,
                    ⟨"user", "Repository commit memory:\n\nWrite a narrated story with one paragraph per commit."⟩] } := by
  refine ⟨fun m t => ?_, fun memory => rfl, rfl, rfl⟩
  simp [extract_commit_memory, extractFrom]

/-- Counterexample for C5 as stated: with a credential present,
`generate_story` on the empty record sequence does reach the external
service (it produces a request), contrary to the claimed short-circuit. -/
theorem empty_history_cex :
    issuesRequest
      (generate_story (some "key") ([] : List CommitRecord) (0 : Nat) 10) =
      true := rfl

/-- Claim C8 (confirmed): with the external-service credential absent
(unset, or empty which Python `if not key` also rejects), the narrative
step fails with the configuration error immediately — the check is the
first thing `generate_story` runs — and no request is ever issued. -/
theorem missing_credential_spec :
    (∀ (memory : List CommitRecord) (temperature max_recent : Nat),
      generate_story none memory temperature max_recent =
        Except.error StoryError.missingKey) ∧
    (∀ (memory : List CommitRecord) (temperature max_recent : Nat),
      generate_story (some "") memory temperature max_recent =
        Except.error StoryError.missingKey) ∧
    (∀ (memory : List CommitRecord) (temperature max_recent : Nat),
      issuesRequest (generate_story none memory temperature max_recent) =
        false) ∧
    ensure_openai none = Except.error StoryError.missingKey :=
  ⟨fun _ _ _ => rfl, fun _ _ _ => rfl, fun _ _ _ => rfl, rfl⟩

/-- Claim C7 (corrected): for a remote (http-prefixed) location the
accessor computes the deterministic cache path
`tmpdir/repo_cache/basename-with-every-".git"-removed`, clones only when
nothing exists there, and reuses the cache otherwise.  When `".git"`
occurs only as a trailing suffix the final component is the suffix-
stripped basename, but `replace` removes every occurrence, so interior
`".git"` substrings are not preserved — refuted as originally stated by
`get_repo_cex`. -/
theorem get_repo_spec (tmpdir : String) (pathExists : String → Bool)
    (url : String) (h : pyStartsWith url "http" = true) :
    (pathExists (cachePathFor tmpdir url) = true →
      get_repo tmpdir pathExists url =
        RepoAction.openCached (cachePathFor tmpdir url)) ∧
    (pathExists (cachePathFor tmpdir url) = false →
      get_repo tmpdir pathExists url =
        RepoAction.cloneAndOpen url (cachePathFor tmpdir url)) ∧
    cachePathFor tmpdir url =
      joinPath (joinPath tmpdir "repo_cache")
        (pyReplace (basename url) ".git" "") ∧
    pyReplace (basename "http://h/repo.git") ".git" "" = "repo" := by
  refine ⟨?_, ?_, rfl, rfl⟩
  · intro hex
    simp [get_repo, h, hex]
  · intro hex
    simp [get_repo, h, hex]

/-- Witness for C7 at a concrete input: a fresh remote URL with a
trailing `.git` suffix is cloned into the suffix-stripped cache path. -/
theorem get_repo_witness :
    get_repo "/tmp" (fun _ => false) "http://h/repo.git" =
      RepoAction.cloneAndOpen "http://h/repo.git"
        (cachePathFor "/tmp" "http://h/repo.git") :=
  (get_repo_spec "/tmp" (fun _ => false) "http://h/repo.git" rfl).2.1 rfl

/-- Counterexample for C7 as stated: the URL `http://h/my.github` has no
trailing `.git` suffix, so the claim requires the cache path component
`my.github` unchanged, but `replace` deletes the interior `.git` and the
code caches at `.../myhub`. -/
theorem get_repo_cex :
    get_repo "/tmp" (fun _ => false) "http://h/my.github" =
      RepoAction.cloneAndOpen "http://h/my.github" "/tmp/repo_cache/myhub" ∧
    get_repo "/tmp" (fun _ => false) "http://h/my.github" ≠
      RepoAction.cloneAndOpen "http://h/my.github"
        "/tmp/repo_cache/my.github" := ⟨rfl, by decide⟩
